import Mathlib

/-
Verification development for the tool-calling chat framework in
`framework.py`.

The Python source is shallowly embedded:
- Python dicts are association lists (`List (String × _)`) with
  insertion-order semantics (`dictGet`, `dictSet`, `hasKey`);
- JSON-able Python values are `JValue`; `json.dumps` is `dumps` and
  `json.loads` is `json_loads` (a fuel-based recursive-descent parser);
- Python callables registered as tools are `PyFunc` records holding the
  introspectable data (`__name__`, docstring, signature parameter names)
  plus a total function from keyword arguments to a result;
- raised exceptions are the `Except PyError` monad;
- the remote model endpoint is an oracle: `Chatter.chat` consumes a list
  of `RemoteResponse`s, one per round trip, and records every outbound
  `Request` it would have sent.
-/

/-- JSON values, modelling the Python values handled by `json.loads` /
`json.dumps` in this codebase (strings, integers, booleans, null, arrays,
objects). Floating-point literals are outside the modelled fragment. -/
inductive JValue where
  | null
  | bool (b : Bool)
  | num (n : Int)
  | str (s : String)
  | arr (elems : List JValue)
  | obj (members : List (String × JValue))

/-- Left brace character, written via its code point. -/
def lbraceChar : Char := Char.ofNat 123

/-- Right brace character, written via its code point. -/
def rbraceChar : Char := Char.ofNat 125

/-- Python-dict lookup on an association list: first binding for the key. -/
def dictGet {α : Type} (d : List (String × α)) (k : String) : Option α :=
  match d with
  | [] => none
  | (k1, v) :: rest => if k1 = k then some v else dictGet rest k

/-- Python-dict membership test (`k in d`). -/
def hasKey {α : Type} (d : List (String × α)) (k : String) : Bool :=
  match d with
  | [] => false
  | (k1, _) :: rest => if k1 = k then true else hasKey rest k

/-- Python-dict update `d[k] = v`: overwrite in place keeping the key's
original position, else append at the end (insertion order). -/
def dictSet {α : Type} (d : List (String × α)) (k : String) (v : α) :
    List (String × α) :=
  match d with
  | [] => [(k, v)]
  | (k1, v1) :: rest =>
    if k1 = k then (k, v) :: rest else (k1, v1) :: dictSet rest k v

/-- Build a Python dict from a sequence of key/value pairs (later pairs
win, as when `json.loads` materialises an object). -/
def buildDict (l : List (String × JValue)) : List (String × JValue) :=
  l.foldl (fun d p => dictSet d p.1 p.2) []

/-- Escaping of a single character inside a JSON string literal, as
`json.dumps` performs it for the characters this codebase produces. -/
def escapeChar (c : Char) : String :=
  if c = '"' then "\\\""
  else if c = '\\' then "\\\\"
  else if c = '\n' then "\\n"
  else if c = '\r' then "\\r"
  else if c = '\t' then "\\t"
  else String.singleton c

/-- Escaping of a whole string for inclusion in JSON output. -/
def escapeString (s : String) : String :=
  s.data.foldl (fun acc c => acc ++ escapeChar c) ""

mutual

/-- Models Python `json.dumps` (default separators `", "` and `": "`) on
the modelled value fragment. -/
def dumps : JValue → String
  | .null => "null"
  | .bool true => "true"
  | .bool false => "false"
  | .num n => toString n
  | .str s => "\"" ++ escapeString s ++ "\""
  | .arr elems => "[" ++ dumpsElems elems ++ "]"
  | .obj members => "\x7b" ++ dumpsMembers members ++ "\x7d"

/-- Comma-joined serialization of array elements. -/
def dumpsElems : List JValue → String
  | [] => ""
  | [v] => dumps v
  | v :: rest => dumps v ++ ", " ++ dumpsElems rest

/-- Comma-joined serialization of object members. -/
def dumpsMembers : List (String × JValue) → String
  | [] => ""
  | [(k, v)] => "\"" ++ escapeString k ++ "\": " ++ dumps v
  | (k, v) :: rest =>
    "\"" ++ escapeString k ++ "\": " ++ dumps v ++ ", " ++ dumpsMembers rest

end

/-- Skip JSON whitespace. -/
def skipWs : List Char → List Char
  | [] => []
  | c :: rest =>
    if c = ' ' ∨ c = '\n' ∨ c = '\t' ∨ c = '\r' then skipWs rest
    else c :: rest

/-- Resolve a backslash escape inside a JSON string literal (`\uXXXX`
escapes are outside the modelled fragment and fail). -/
def unescapeChar (c : Char) : Option Char :=
  if c = '"' then some '"'
  else if c = '\\' then some '\\'
  else if c = '/' then some '/'
  else if c = 'n' then some '\n'
  else if c = 'r' then some '\r'
  else if c = 't' then some '\t'
  else if c = 'b' then some (Char.ofNat 8)
  else if c = 'f' then some (Char.ofNat 12)
  else none

/-- Parse the body of a JSON string literal, after the opening quote;
returns the decoded string and the remaining input. -/
def parseStringBody : List Char → Option (String × List Char)
  | [] => none
  | '"' :: rest => some ("", rest)
  | '\\' :: rest =>
    match rest with
    | [] => none
    | e :: rest2 =>
      match unescapeChar e with
      | none => none
      | some uc =>
        match parseStringBody rest2 with
        | none => none
        | some (s, r) => some (String.singleton uc ++ s, r)
  | c :: rest =>
    match parseStringBody rest with
    | none => none
    | some (s, r) => some (String.singleton c ++ s, r)

/-- Consume a maximal run of decimal digits, accumulating their value. -/
def parseDigits : List Char → Nat → (Nat × List Char)
  | [], acc => (acc, [])
  | c :: rest, acc =>
    if c.isDigit then parseDigits rest (acc * 10 + (c.toNat - 48))
    else (acc, c :: rest)

/-- Parse a JSON integer literal (floating-point literals are outside the
modelled fragment and fail to parse). -/
def parseNumber : List Char → Option (JValue × List Char)
  | [] => none
  | c :: rest =>
    if c = '-' then
      match rest with
      | [] => none
      | d :: _ =>
        if d.isDigit then
          let (n, r) := parseDigits rest 0
          some (.num (-(n : Int)), r)
        else none
    else if c.isDigit then
      let (n, r) := parseDigits (c :: rest) 0
      some (.num ((n : Nat) : Int), r)
    else none

mutual

/-- Fuel-based recursive-descent parser for one JSON value; models
Python `json.loads` on the modelled fragment. -/
def parseValue : Nat → List Char → Option (JValue × List Char)
  | 0, _ => none
  | fuel + 1, input =>
    match skipWs input with
    | [] => none
    | c :: rest =>
      if c = 'n' then
        match rest with
        | 'u' :: 'l' :: 'l' :: r => some (.null, r)
        | _ => none
      else if c = 't' then
        match rest with
        | 'r' :: 'u' :: 'e' :: r => some (.bool true, r)
        | _ => none
      else if c = 'f' then
        match rest with
        | 'a' :: 'l' :: 's' :: 'e' :: r => some (.bool false, r)
        | _ => none
      else if c = '"' then
        match parseStringBody rest with
        | none => none
        | some (s, r) => some (.str s, r)
      else if c = '[' then parseElemsStart fuel rest
      else if c = lbraceChar then parseMembersStart fuel rest
      else parseNumber (c :: rest)

/-- Parse an array body after the opening bracket. -/
def parseElemsStart : Nat → List Char → Option (JValue × List Char)
  | 0, _ => none
  | fuel + 1, input =>
    match skipWs input with
    | [] => none
    | c :: rest =>
      if c = ']' then some (.arr [], rest)
      else
        match parseValue fuel (c :: rest) with
        | none => none
        | some (v, r) => parseElemsRest fuel [v] r

/-- Parse the continuation of an array after at least one element. -/
def parseElemsRest : Nat → List JValue → List Char →
    Option (JValue × List Char)
  | 0, _, _ => none
  | fuel + 1, acc, input =>
    match skipWs input with
    | [] => none
    | c :: rest =>
      if c = ']' then some (.arr acc.reverse, rest)
      else if c = ',' then
        match parseValue fuel rest with
        | none => none
        | some (v, r) => parseElemsRest fuel (v :: acc) r
      else none

/-- Parse an object body after the opening brace. -/
def parseMembersStart : Nat → List Char → Option (JValue × List Char)
  | 0, _ => none
  | fuel + 1, input =>
    match skipWs input with
    | [] => none
    | c :: rest =>
      if c = rbraceChar then some (.obj [], rest)
      else if c = '"' then
        match parseStringBody rest with
        | none => none
        | some (k, r) =>
          match parseMemberValue fuel r with
          | none => none
          | some (v, r2) => parseMembersRest fuel [(k, v)] r2
      else none

/-- Parse the colon and value of one object member. -/
def parseMemberValue : Nat → List Char → Option (JValue × List Char)
  | 0, _ => none
  | fuel + 1, input =>
    match skipWs input with
    | ':' :: rest => parseValue fuel rest
    | _ => none

/-- Parse the continuation of an object after at least one member;
materialises the members as a Python dict (later duplicates win). -/
def parseMembersRest : Nat → List (String × JValue) → List Char →
    Option (JValue × List Char)
  | 0, _, _ => none
  | fuel + 1, acc, input =>
    match skipWs input with
    | [] => none
    | c :: rest =>
      if c = rbraceChar then some (.obj (buildDict acc.reverse), rest)
      else if c = ',' then
        match skipWs rest with
        | [] => none
        | c2 :: rest2 =>
          if c2 = '"' then
            match parseStringBody rest2 with
            | none => none
            | some (k, r) =>
              match parseMemberValue fuel r with
              | none => none
              | some (v, r2) => parseMembersRest fuel ((k, v) :: acc) r2
          else none
      else none

end

/-- Models Python `json.loads`: parse one JSON document and require the
whole input to be consumed. The fuel bound `4 * (length + 1)` dominates
the parser's fuel consumption, which is at most a constant per input
character. -/
def json_loads (s : String) : Option JValue :=
  match parseValue (4 * (s.length + 1)) s.data with
  | none => none
  | some (v, rest) => if (skipWs rest).isEmpty then some v else none

/-- A Python callable as seen by the framework: its `__name__`, its
docstring as returned by `inspect.getdoc`, its formal parameter names in
signature order, and a total function giving the value it returns on a
keyword-argument dictionary. -/
structure PyFunc where
  name : String
  doc : Option String
  params : List String
  impl : List (String × JValue) → JValue

/-- The shared `TOOL_REGISTRY` mapping (Python class `ToolRegistry`,
a dict from tool name to callable); made an explicit value since the
embedding has no global mutable state. -/
abbrev Registry := List (String × PyFunc)

/-- Models the `register_tool(name)` decorator: registers `fn` in the
registry under `name` (`TOOL_REGISTRY[name] = fn`, overwrite allowed)
and returns `fn` unchanged. -/
def register_tool (name : String) (fn : PyFunc) (reg : Registry) :
    Registry × PyFunc :=
  (dictSet reg name fn, fn)

/-- Python `x or y` on a string (the empty string is falsy). -/
def strOr (s d : String) : String := if s = "" then d else s

/-- Python `x or y` on an optional string (`None` and `""` are both
falsy). -/
def pyOrStr (x : Option String) (d : String) : String :=
  match x with
  | none => d
  | some s => if s = "" then d else s

/-- The per-parameter schema dict built by `generate_tool_metadata`. -/
structure ParamSchema where
  type : String
  description : String
deriving DecidableEq

/-- The `parameters` sub-dict of a tool schema. -/
structure ToolParameters where
  type : String
  properties : List (String × ParamSchema)
  required : List String
  additionalProperties : Bool
deriving DecidableEq

/-- The schema dict returned by `generate_tool_metadata`. -/
structure ToolMetadata where
  name : String
  description : String
  parameters : ToolParameters
deriving DecidableEq

/-- One element of the `get_tools()` result:
a dict with keys `type` and `function`. -/
structure WrappedTool where
  type : String
  function : ToolMetadata
deriving DecidableEq

/-- Models `generate_tool_metadata(tool_fn)`: name from `__name__`,
description from `inspect.getdoc(tool_fn) or` the generated fallback
(Python `or`: the fallback is used both when `getdoc` returns `None`
and when it returns an empty docstring), one string-typed property and
one `required` entry per formal parameter, `additionalProperties`
false. -/
def generate_tool_metadata (tool_fn : PyFunc) : ToolMetadata :=
  let name := tool_fn.name
  let description := pyOrStr tool_fn.doc ("Tool function: " ++ name)
  { name := name
    description := description
    parameters :=
      { type := "object"
        properties := tool_fn.params.foldl
          (fun d p => dictSet d p ⟨"string", "Parameter: " ++ p⟩) []
        required := tool_fn.params
        additionalProperties := false } }

/-- The record passed to `run_tool`:
a dict with keys `name` and `arguments`. -/
structure ToolCallDict where
  name : String
  arguments : String
deriving DecidableEq

/-- One tool-call request as carried on an assistant message
(`tool_call.id`, `tool_call.function.name`,
`tool_call.function.arguments`). -/
structure ToolCallRec where
  id : String
  name : String
  arguments : String
deriving DecidableEq

/-- A history entry (Python dict keyed by `role`). The constructor
`other` models an entry whose role string is none of the four
recognised roles. Python `None` content and empty-string content behave
identically in the source (both are falsy), so both are embedded as
`""`. -/
inductive HistMsg where
  | system (content : String)
  | user (content : String)
  | assistant (content : String) (tool_calls : Option (List ToolCallRec))
  | tool (tool_call_id : String) (name : String) (content : String)
  | other (role : String) (content : String)
deriving DecidableEq

/-- Exceptions raised by the embedded code paths. -/
inductive PyError where
  | jsonDecodeError
  | toolNotFound (name : String)
  | typeError
  | invalidRole (msg : HistMsg)
deriving DecidableEq

/-- Python keyword-argument binding for `fn(**kwargs)` with a plain
positional-or-keyword signature and no defaults: every supplied key must
name a parameter and every parameter must be supplied. -/
def bindingOk (params : List String) (kwargs : List (String × JValue)) :
    Bool :=
  (kwargs.all fun kv => params.contains kv.1) &&
  (params.all fun p => hasKey kwargs p)

/-- Invoke a registered callable on parsed keyword arguments, surfacing
Python's binding `TypeError` when the keys do not match the signature. -/
def callWithKwargs (fn : PyFunc) (kwargs : List (String × JValue)) :
    Except PyError JValue :=
  if bindingOk fn.params kwargs then .ok (fn.impl kwargs)
  else .error .typeError

/-- Models `run_tool(tool_call)`: parse `arguments` as JSON (raising a
decode error on failure), look the name up in the registry (raising
`ToolNotFoundError` when absent), then invoke the callable with the
parsed object expanded as keyword arguments (a non-object argument value
raises `TypeError` at the `**` expansion). -/
def run_tool (reg : Registry) (tool_call : ToolCallDict) :
    Except PyError JValue :=
  match json_loads tool_call.arguments with
  | none => .error .jsonDecodeError
  | some args =>
    match dictGet reg tool_call.name with
    | none => .error (.toolNotFound tool_call.name)
    | some tool_fn =>
      match args with
      | .obj kwargs => callWithKwargs tool_fn kwargs
      | _ => .error .typeError

/-- Models `get_tools()`: one wrapped schema entry per registry value,
in registry iteration order. -/
def get_tools (reg : Registry) : List WrappedTool :=
  reg.map fun p => ⟨"function", generate_tool_metadata p.2⟩

/-- The `Chatter` instance state set up by `__init__`. The OpenAI client
is an external transport and is not part of the state; the model name
default stands in for `os.getenv("OPENAI_MODEL", "gpt-5-nano")`. -/
structure Chatter where
  system_message : String
  tools : List WrappedTool
  model : String

/-- Models `Chatter.__init__(system_message, tools, client, model)`
against the registry state at construction time: `tools` defaults to
`get_tools()` evaluated then and there. -/
def Chatter.init (reg : Registry) (system_message : Option String)
    (tools : Option (List WrappedTool)) (model : Option String) : Chatter :=
  { system_message := pyOrStr system_message "You are a helpful assistant."
    tools := tools.getD (get_tools reg)
    model := pyOrStr model "gpt-5-nano" }

/-- One dict of the list built by `_handle_tool_calls`. -/
structure ToolResponseMsg where
  tool_call_id : String
  name : String
  content : String
deriving DecidableEq

/-- Models `Chatter._handle_tool_calls`: run every tool call in order,
serialise each result with `json.dumps`, and collect the response dicts;
the first raising dispatch aborts the whole list. -/
def Chatter.handle_tool_calls (reg : Registry)
    (tool_calls : List ToolCallRec) :
    Except PyError (List ToolResponseMsg) :=
  match tool_calls with
  | [] => .ok []
  | tc :: rest =>
    match run_tool reg ⟨tc.name, tc.arguments⟩ with
    | .error e => .error e
    | .ok result =>
      match Chatter.handle_tool_calls reg rest with
      | .error e => .error e
      | .ok responses => .ok (⟨tc.id, tc.name, dumps result⟩ :: responses)

/-- An outbound message in the remote API's shape, as produced by
`to_openai_message`. -/
inductive OutMsg where
  | system (content : String)
  | user (content : String)
  | assistant (content : String) (tool_calls : Option (List ToolCallRec))
  | tool (tool_call_id : String) (name : String) (content : String)
deriving DecidableEq

/-- Models the inner function `to_openai_message` of `Chatter.chat`:
translate one history entry, including an assistant entry's tool-call
list only when present and non-empty, and raising `ValueError` on any
unrecognised role. -/
def to_openai_message : HistMsg → Except PyError OutMsg
  | .system c => .ok (.system c)
  | .user c => .ok (.user c)
  | .assistant c tcs =>
    .ok (.assistant c (match tcs with
      | none => none
      | some l => if l.isEmpty then none else some l))
  | .tool tcid n c => .ok (.tool tcid n c)
  | .other r c => .error (.invalidRole (.other r c))

/-- Translate a list of history entries in order, stopping at the first
entry whose role is unrecognised (the Python list comprehension). -/
def translateList : List HistMsg → Except PyError (List OutMsg)
  | [] => .ok []
  | m :: rest =>
    match to_openai_message m with
    | .error e => .error e
    | .ok om =>
      match translateList rest with
      | .error e => .error e
      | .ok oms => .ok (om :: oms)

/-- Models the construction
`messages = [system] + [to_openai_message(m) for m in history]`. -/
def translateHistory (sysMsg : String) (history : List HistMsg) :
    Except PyError (List OutMsg) :=
  match translateList history with
  | .error e => .error e
  | .ok oms => .ok (OutMsg.system sysMsg :: oms)

/-- One request to `client.chat.completions.create`. -/
structure Request where
  model : String
  messages : List OutMsg
  tools : List WrappedTool
  tool_choice : String
deriving DecidableEq

/-- One remote response, reduced to the fields the driver inspects:
`assistant_message.content` (with Python `None` and `""` both embedded
as `""`, which the source treats identically) and the tool-call list
(with an absent attribute and an empty list both embedded as `[]`,
likewise treated identically). -/
structure RemoteResponse where
  content : String
  tool_calls : List ToolCallRec
deriving DecidableEq

/-- Result of one `chat` invocation; the history reflects every append
performed before the turn ended, and `requests` records each outbound
remote-model request in order. `outOfResponses` is the artefact of the
oracle model: the response list ran out while the loop still wanted
another round trip. -/
inductive ChatOutcome where
  | ok (history : List HistMsg) (result : String) (requests : List Request)
  | err (history : List HistMsg) (error : PyError) (requests : List Request)
  | outOfResponses (history : List HistMsg) (requests : List Request)
deriving DecidableEq

/-- The history as left behind by the turn, in every outcome. -/
def ChatOutcome.history : ChatOutcome → List HistMsg
  | .ok h _ _ => h
  | .err h _ _ => h
  | .outOfResponses h _ => h

/-- The outbound requests issued during the turn, in every outcome. -/
def ChatOutcome.requests : ChatOutcome → List Request
  | .ok _ _ r => r
  | .err _ _ r => r
  | .outOfResponses _ r => r

/-- The `while True` loop of `Chatter.chat`, consuming one oracle
response per iteration: emit the request; on a tool-call-carrying
response append the assistant entry, dispatch the calls, append the tool
entries, retranslate and continue; on a tool-call-free response append
the final assistant entry and return its content. -/
def chatLoop (model : String) (tools : List WrappedTool) (sysMsg : String)
    (reg : Registry) :
    List HistMsg → List OutMsg → List RemoteResponse → List Request →
    ChatOutcome
  | history, _, [], requests => .outOfResponses history requests
  | history, msgs, resp :: rest, requests =>
    let requests2 := requests ++ [⟨model, msgs, tools, "auto"⟩]
    if resp.tool_calls.isEmpty then
      let content := strOr resp.content "No response."
      .ok (history ++ [.assistant content none]) content requests2
    else
      let history2 := history ++
        [.assistant (strOr resp.content "Tool call issued.")
          (some resp.tool_calls)]
      match Chatter.handle_tool_calls reg resp.tool_calls with
      | .error e => .err history2 e requests2
      | .ok tool_results =>
        let history3 := history2 ++ tool_results.map fun tm =>
          HistMsg.tool tm.tool_call_id tm.name
            (strOr tm.content "No results found.")
        match translateHistory sysMsg history3 with
        | .error e => .err history3 e requests2
        | .ok messages2 =>
          chatLoop model tools sysMsg reg history3 messages2 rest requests2

/-- Models `Chatter.chat(message, history)`: append the user entry,
translate the history (raising on an unrecognised role), then run the
loop against the oracle's responses. -/
def Chatter.chat (c : Chatter) (reg : Registry) (message : String)
    (history : List HistMsg) (responses : List RemoteResponse) :
    ChatOutcome :=
  let history2 := history ++ [.user message]
  match translateHistory c.system_message history2 with
  | .error e => .err history2 e []
  | .ok messages =>
    chatLoop c.model c.tools c.system_message reg history2 messages
      responses []

/-- The `echo` tool of the test suite: one parameter `msg`, returned
unchanged. -/
def echoFn : PyFunc :=
  { name := "echo"
    doc := some "Echo the input message."
    params := ["msg"]
    impl := fun kwargs => (dictGet kwargs "msg").getD .null }

/-- A tool returning the empty string, exercising the serialization of
an empty result. -/
def emptyResultFn : PyFunc :=
  { name := "empty_result"
    doc := none
    params := []
    impl := fun _ => .str "" }

/-- The `tool_call_id` key of a history entry, when the entry is a tool
message. -/
def HistMsg.toolCallIdOf : HistMsg → Option String
  | .tool tcid _ _ => some tcid
  | _ => none

/-- The `name` key of a history entry, when the entry is a tool
message. -/
def HistMsg.nameOf : HistMsg → Option String
  | .tool _ n _ => some n
  | _ => none

/-- Whether a history entry carries a role outside the four recognised
ones. -/
def HistMsg.isOther : HistMsg → Bool
  | .other _ _ => true
  | _ => false

/-- Lookup after an update finds the updated value (Python dict
semantics; last write wins). -/
lemma dictGet_dictSet_self {α : Type} (d : List (String × α)) (k : String)
    (v : α) : dictGet (dictSet d k v) k = some v := by
  induction d with
  | nil => simp [dictSet, dictGet]
  | cons p rest ih =>
    obtain ⟨k1, v1⟩ := p
    by_cases h : k1 = k
    · simp [dictSet, dictGet, h]
    · simp [dictSet, dictGet, h, ih]

/-- The pair written by an update is a member of the updated dict. -/
lemma mem_dictSet_self {α : Type} (d : List (String × α)) (k : String)
    (v : α) : (k, v) ∈ dictSet d k v := by
  induction d with
  | nil => simp [dictSet]
  | cons p rest ih =>
    obtain ⟨k1, v1⟩ := p
    by_cases h : k1 = k
    · simp [dictSet, h]
    · simp [dictSet, h]
      right
      exact ih

/-- A successful lookup names a member of the dict. -/
lemma mem_of_dictGet {α : Type} :
    ∀ (d : List (String × α)) (k : String) (v : α),
      dictGet d k = some v → (k, v) ∈ d := by
  intro d
  induction d with
  | nil => intro k v h; simp [dictGet] at h
  | cons p rest ih =>
    intro k v h
    obtain ⟨k1, v1⟩ := p
    by_cases hk : k1 = k
    · subst hk
      simp [dictGet] at h
      simp [h]
    · simp [dictGet, hk] at h
      simp [ih k v h]

/-- Updating a dict at a fresh key appends the pair at the end. -/
lemma dictSet_of_fresh {α : Type} (d : List (String × α)) (k : String)
    (v : α) (h : hasKey d k = false) : dictSet d k v = d ++ [(k, v)] := by
  induction d with
  | nil => simp [dictSet]
  | cons p rest ih =>
    obtain ⟨k1, v1⟩ := p
    by_cases hk : k1 = k
    · simp [hasKey, hk] at h
    · simp [hasKey, hk] at h
      simp [dictSet, hk, ih h]

/-- Membership in an appended dict splits over the parts. -/
lemma hasKey_append {α : Type} (d1 d2 : List (String × α)) (k : String) :
    hasKey (d1 ++ d2) k = (hasKey d1 k || hasKey d2 k) := by
  induction d1 with
  | nil => simp [hasKey]
  | cons p rest ih =>
    obtain ⟨k1, v1⟩ := p
    by_cases hk : k1 = k
    · simp [hasKey, hk]
    · simp [hasKey, hk, ih]

/-- Lookup of an absent key fails. -/
lemma dictGet_eq_none_of_not_hasKey {α : Type} :
    ∀ (d : List (String × α)) (k : String),
      hasKey d k = false → dictGet d k = none := by
  intro d
  induction d with
  | nil => intro k _; rfl
  | cons p rest ih =>
    intro k h
    obtain ⟨k1, v1⟩ := p
    by_cases hk : k1 = k
    · simp [hasKey, hk] at h
    · simp [hasKey, hk] at h
      simp [dictGet, hk, ih k h]

/-- Folding fresh, pairwise-distinct insertions into a dict appends the
corresponding pairs in order. -/
lemma foldl_dictSet_fresh {α : Type} (g : String → α) :
    ∀ (ps : List String) (init : List (String × α)), ps.Nodup →
      (∀ p ∈ ps, hasKey init p = false) →
      ps.foldl (fun d p => dictSet d p (g p)) init =
        init ++ ps.map fun p => (p, g p) := by
  intro ps
  induction ps with
  | nil => intro init _ _; simp
  | cons p rest ih =>
    intro init hnd hfresh
    simp only [List.foldl_cons, List.map_cons]
    rw [dictSet_of_fresh init p (g p) (hfresh p (by simp))]
    rw [ih (init ++ [(p, g p)]) (List.Nodup.of_cons hnd) ?_]
    · simp
    · intro q hq
      rw [hasKey_append]
      have hq1 : hasKey init q = false := hfresh q (by simp [hq])
      have hq2 : p ≠ q := by
        rintro rfl
        exact (List.nodup_cons.mp hnd).1 hq
      simp [hq1, hasKey, hq2]

/-- Lookup in the dict of a pairwise-distinct key-indexed map. -/
lemma dictGet_map_of_nodup {α : Type} (g : String → α) :
    ∀ (ps : List String), ps.Nodup → ∀ p ∈ ps,
      dictGet (ps.map fun q => (q, g q)) p = some (g p) := by
  intro ps
  induction ps with
  | nil => intro _ p hp; simp at hp
  | cons q rest ih =>
    intro hnd p hp
    by_cases hq : q = p
    · subst hq
      simp [dictGet]
    · rcases List.mem_cons.mp hp with h | h
      · exact absurd h.symm hq
      · simp only [List.map_cons, dictGet, hq, if_false]
        exact ih (List.Nodup.of_cons hnd) p h

/-- The digit-printing core of `Nat.repr` only returns an empty list
when given empty fuel and an empty accumulator. -/
lemma toDigitsCore_eq_nil (b : Nat) :
    ∀ (f n : Nat) (l : List Char),
      Nat.toDigitsCore b f n l = [] → l = [] ∧ f = 0 := by
  intro f
  induction f with
  | zero => intro n l h; exact ⟨h, rfl⟩
  | succ f ih =>
    intro n l h
    simp only [Nat.toDigitsCore] at h
    split at h
    · exact absurd h (List.cons_ne_nil _ _)
    · exact absurd (ih _ _ h).1 (List.cons_ne_nil _ _)

/-- The decimal representation of a natural number is never the empty
string. -/
lemma Nat_repr_ne_empty (n : Nat) : Nat.repr n ≠ "" := by
  intro h
  have hd : Nat.toDigits 10 n = [] := by
    have := congrArg String.data h
    simpa [Nat.repr, List.asString] using this
  have := toDigitsCore_eq_nil 10 (n + 1) n []
    (by simpa [Nat.toDigits] using hd)
  omega

/-- The decimal representation of an integer is never the empty
string. -/
lemma Int_toString_ne_empty (n : Int) : toString n ≠ "" := by
  show Int.repr n ≠ ""
  cases n with
  | ofNat m => simpa [Int.repr] using Nat_repr_ne_empty m
  | negSucc m =>
    simp only [Int.repr]
    intro h
    have := congrArg String.data h
    simp at this

/-- `json.dumps` never produces the empty string: every value's
serialization starts with a quote, bracket, brace, digit, sign or
keyword character. -/
lemma dumps_ne_empty (v : JValue) : dumps v ≠ "" := by
  cases v with
  | null => simp [dumps]
  | bool b => cases b <;> simp [dumps]
  | num n => simpa [dumps] using Int_toString_ne_empty n
  | str s =>
    simp only [dumps]
    intro h
    have := congrArg String.length h
    simp [String.length_append] at this
    exact absurd this.1.1 (by decide)
  | arr elems =>
    simp only [dumps]
    intro h
    have := congrArg String.length h
    simp [String.length_append] at this
    exact absurd this.1.1 (by decide)
  | obj members =>
    simp only [dumps]
    intro h
    have := congrArg String.length h
    simp [String.length_append] at this
    exact absurd this.1.1 (by decide)

/-- Translating a history entry whose role is recognised always
succeeds. -/
lemma to_openai_message_ok (m : HistMsg) (h : m.isOther = false) :
    ∃ om, to_openai_message m = .ok om := by
  cases m <;> simp [to_openai_message, HistMsg.isOther] at h ⊢

/-- Translating a list of entries with recognised roles succeeds. -/
lemma translateList_ok_of_no_other :
    ∀ (l : List HistMsg), (∀ m ∈ l, m.isOther = false) →
      ∃ oms, translateList l = .ok oms := by
  intro l
  induction l with
  | nil => intro _; exact ⟨[], rfl⟩
  | cons m rest ih =>
    intro h
    obtain ⟨om, hom⟩ := to_openai_message_ok m (h m (by simp))
    obtain ⟨oms, homs⟩ := ih fun x hx => h x (by simp [hx])
    exact ⟨om :: oms, by simp [translateList, hom, homs]⟩

/-- Translation distributes over appending when both halves succeed. -/
lemma translateList_append_ok :
    ∀ (l1 l2 : List HistMsg) (a b : List OutMsg),
      translateList l1 = .ok a → translateList l2 = .ok b →
      translateList (l1 ++ l2) = .ok (a ++ b) := by
  intro l1
  induction l1 with
  | nil =>
    intro l2 a b h1 h2
    simp only [translateList] at h1
    injection h1 with h1
    subst h1
    simpa using h2
  | cons m rest ih =>
    intro l2 a b h1 h2
    simp only [translateList] at h1
    cases hom : to_openai_message m with
    | error e => rw [hom] at h1; exact absurd h1 (by simp)
    | ok om =>
      rw [hom] at h1
      cases hrest : translateList rest with
      | error e => rw [hrest] at h1; exact absurd h1 (by simp)
      | ok oms =>
        rw [hrest] at h1
        injection h1 with h1
        subst h1
        simp only [List.cons_append, translateList, hom]
        have h3 := ih l2 oms b hrest h2
        rw [show rest.append l2 = rest ++ l2 from rfl, h3]

/-- If some entry of a list carries an unrecognised role, translating
the list fails, with the error naming an unrecognised-role entry. -/
lemma translateList_error_of_other :
    ∀ (l : List HistMsg), (∃ m ∈ l, m.isOther = true) →
      ∃ r c, translateList l = .error (.invalidRole (.other r c)) := by
  intro l
  induction l with
  | nil => rintro ⟨m, hm, _⟩; simp at hm
  | cons m rest ih =>
    rintro ⟨bad, hbad, hother⟩
    cases m with
    | other r c =>
      exact ⟨r, c, by simp [translateList, to_openai_message]⟩
    | system c =>
      have hrest : bad ∈ rest := by
        rcases List.mem_cons.mp hbad with h | h
        · subst h; simp [HistMsg.isOther] at hother
        · exact h
      obtain ⟨r1, c1, h1⟩ := ih ⟨bad, hrest, hother⟩
      exact ⟨r1, c1, by simp [translateList, to_openai_message, h1]⟩
    | user c =>
      have hrest : bad ∈ rest := by
        rcases List.mem_cons.mp hbad with h | h
        · subst h; simp [HistMsg.isOther] at hother
        · exact h
      obtain ⟨r1, c1, h1⟩ := ih ⟨bad, hrest, hother⟩
      exact ⟨r1, c1, by simp [translateList, to_openai_message, h1]⟩
    | assistant c tcs =>
      have hrest : bad ∈ rest := by
        rcases List.mem_cons.mp hbad with h | h
        · subst h; simp [HistMsg.isOther] at hother
        · exact h
      obtain ⟨r1, c1, h1⟩ := ih ⟨bad, hrest, hother⟩
      exact ⟨r1, c1, by simp [translateList, to_openai_message, h1]⟩
    | tool tcid n c =>
      have hrest : bad ∈ rest := by
        rcases List.mem_cons.mp hbad with h | h
        · subst h; simp [HistMsg.isOther] at hother
        · exact h
      obtain ⟨r1, c1, h1⟩ := ih ⟨bad, hrest, hother⟩
      exact ⟨r1, c1, by simp [translateList, to_openai_message, h1]⟩
/-- A successful `_handle_tool_calls` run returns one response per
request, in order, with matching ids and names, and with each content
the `json.dumps` serialization of some tool result. -/
lemma handle_tool_calls_align (reg : Registry) :
    ∀ (tcs : List ToolCallRec) (results : List ToolResponseMsg),
      Chatter.handle_tool_calls reg tcs = .ok results →
      results.map ToolResponseMsg.tool_call_id = tcs.map ToolCallRec.id ∧
      results.map ToolResponseMsg.name = tcs.map ToolCallRec.name ∧
      ∀ r ∈ results, ∃ v, r.content = dumps v := by
  intro tcs
  induction tcs with
  | nil =>
    intro results h
    simp only [Chatter.handle_tool_calls] at h
    injection h with h
    subst h
    simp
  | cons tc rest ih =>
    intro results h
    simp only [Chatter.handle_tool_calls] at h
    cases hrun : run_tool reg ⟨tc.name, tc.arguments⟩ with
    | error e => rw [hrun] at h; exact absurd h (by simp)
    | ok v =>
      rw [hrun] at h
      cases hrec : Chatter.handle_tool_calls reg rest with
      | error e => rw [hrec] at h; exact absurd h (by simp)
      | ok rs =>
        rw [hrec] at h
        injection h with h
        subst h
        obtain ⟨h1, h2, h3⟩ := ih rs hrec
        refine ⟨by simp [h1], by simp [h2], ?_⟩
        intro r hr
        rcases List.mem_cons.mp hr with hx | hx
        · exact ⟨v, by simp [hx]⟩
        · exact h3 r hx

/-- Every iteration of the chat loop only appends to the history: the
incoming history is an initial segment of the outgoing one, in every
outcome. -/
lemma chatLoop_history_extends (model : String) (tools : List WrappedTool)
    (sysMsg : String) (reg : Registry) :
    ∀ (responses : List RemoteResponse) (hist : List HistMsg)
      (msgs : List OutMsg) (reqs : List Request),
      ∃ t, (chatLoop model tools sysMsg reg hist msgs responses reqs).history
        = hist ++ t := by
  intro responses
  induction responses with
  | nil =>
    intro hist msgs reqs
    exact ⟨[], by simp [chatLoop, ChatOutcome.history]⟩
  | cons resp rest ih =>
    intro hist msgs reqs
    cases hic : resp.tool_calls.isEmpty with
    | true =>
      refine ⟨[.assistant (strOr resp.content "No response.") none], ?_⟩
      simp [chatLoop, hic, ChatOutcome.history]
    | false =>
      simp only [chatLoop, hic, Bool.false_eq_true, if_false]
      split
      · exact ⟨_, rfl⟩
      · split
        · exact ⟨_, List.append_assoc _ _ _⟩
        · rename_i x1 rs hrec x2 m2 htr
          obtain ⟨t2, ht2⟩ := ih
            (hist ++
              [.assistant (strOr resp.content "Tool call issued.")
                (some resp.tool_calls)] ++
              rs.map fun tm => HistMsg.tool tm.tool_call_id tm.name
                (strOr tm.content "No results found."))
            m2 (reqs ++ [⟨model, msgs, tools, "auto"⟩])
          refine ⟨[HistMsg.assistant (strOr resp.content "Tool call issued.")
              (some resp.tool_calls)] ++
              (rs.map fun tm => HistMsg.tool tm.tool_call_id tm.name
                (strOr tm.content "No results found.")) ++ t2, ?_⟩
          rw [ht2]
          simp [List.append_assoc]

/-- Every request emitted by the chat loop carries the schema list the
loop was given (the driver's `self.tools`), provided the already-emitted
requests do. -/
lemma chatLoop_requests_tools (model : String) (tools : List WrappedTool)
    (sysMsg : String) (reg : Registry) :
    ∀ (responses : List RemoteResponse) (hist : List HistMsg)
      (msgs : List OutMsg) (reqs : List Request),
      (∀ r ∈ reqs, r.tools = tools) →
      ∀ r ∈ (chatLoop model tools sysMsg reg hist msgs
          responses reqs).requests, r.tools = tools := by
  intro responses
  induction responses with
  | nil =>
    intro hist msgs reqs hreqs r hr
    simp only [chatLoop, ChatOutcome.requests] at hr
    exact hreqs r hr
  | cons resp rest ih =>
    intro hist msgs reqs hreqs r hr
    have hstep : ∀ x ∈ reqs ++ [(⟨model, msgs, tools, "auto"⟩ : Request)],
        x.tools = tools := by
      intro x hx
      rcases List.mem_append.mp hx with h | h
      · exact hreqs x h
      · simp at h
        subst h
        rfl
    cases hic : resp.tool_calls.isEmpty with
    | true =>
      simp only [chatLoop, hic, if_true, ChatOutcome.requests] at hr
      exact hstep r hr
    | false =>
      simp only [chatLoop, hic, Bool.false_eq_true, if_false] at hr
      split at hr
      · exact hstep r hr
      · split at hr
        · exact hstep r hr
        · exact ih _ _ _ hstep r hr

/-- Every request emitted during a `chat` turn carries the driver's
`self.tools` schema list as stored at construction. -/
lemma chat_requests_tools (c : Chatter) (reg : Registry) (message : String)
    (hist : List HistMsg) (responses : List RemoteResponse) :
    ∀ r ∈ (Chatter.chat c reg message hist responses).requests,
      r.tools = c.tools := by
  intro r hr
  simp only [Chatter.chat] at hr
  split at hr
  · simp [ChatOutcome.requests] at hr
  · exact chatLoop_requests_tools c.model c.tools c.system_message reg
      responses _ _ [] (by simp) r hr

/-- C3 (amended): for every tool-call record whose arguments string is
valid JSON and whose name is not a key of the registry, `run_tool` fails
with the ToolNotFound error carrying the requested name. (As originally
stated — for arbitrary argument strings — the claim fails: `json.loads`
runs before the registry lookup, so an invalid arguments string raises a
JSON decode error first; see the counterexample.) -/
theorem claim_C3 (reg : Registry) (tc : ToolCallDict) (v : JValue)
    (hjson : json_loads tc.arguments = some v)
    (habsent : dictGet reg tc.name = none) :
    run_tool reg tc = .error (.toolNotFound tc.name) := by
  simp [run_tool, hjson, habsent]

/-- C3 witness: dispatching an unregistered name with parseable
arguments raises ToolNotFound. -/
theorem claim_C3_witness :
    run_tool [] ⟨"nonexistent", "\x7b\x7d"⟩ =
      .error (.toolNotFound "nonexistent") :=
  claim_C3 [] ⟨"nonexistent", "\x7b\x7d"⟩ (JValue.obj []) rfl rfl

/-- C3 counterexample: with an arguments string that is not valid JSON,
dispatching an unregistered name raises the JSON decode error, not
ToolNotFound — the parse happens before the lookup, so the dispatch does
raise another kind of error first. -/
theorem claim_C3_counterexample :
    run_tool [] ⟨"nonexistent", "not json"⟩ = .error .jsonDecodeError ∧
    PyError.jsonDecodeError ≠ PyError.toolNotFound "nonexistent" :=
  ⟨rfl, by decide⟩

/-- C4: dispatching a registered name with a JSON-object arguments
string invokes exactly the registered callable on the parsed keys as
keyword arguments (returning its result unchanged when the keys bind),
and re-registering a different callable under the same name replaces
dispatch behavior with no error (last write wins). -/
theorem claim_C4 (reg : Registry) (n : String) (f g : PyFunc) (A : String)
    (kwargs : List (String × JValue))
    (hA : json_loads A = some (.obj kwargs)) :
    run_tool (dictSet reg n f) ⟨n, A⟩ = callWithKwargs f kwargs ∧
    (bindingOk f.params kwargs = true →
      run_tool (dictSet reg n f) ⟨n, A⟩ = .ok (f.impl kwargs)) ∧
    run_tool (dictSet (dictSet reg n f) n g) ⟨n, A⟩ =
      callWithKwargs g kwargs := by
  refine ⟨?_, ?_, ?_⟩
  · simp [run_tool, hA, dictGet_dictSet_self]
  · intro hb
    simp [run_tool, hA, dictGet_dictSet_self, callWithKwargs, hb]
  · simp [run_tool, hA, dictGet_dictSet_self]

/-- C4 witness: the echo tool invoked through dispatch on concrete
arguments, then replaced by a different callable. -/
theorem claim_C4_witness :
    run_tool (dictSet [] "echo" echoFn)
        ⟨"echo", "\x7b\"msg\": \"hi\"\x7d"⟩ =
      callWithKwargs echoFn [("msg", JValue.str "hi")] ∧
    run_tool (dictSet [] "echo" echoFn)
        ⟨"echo", "\x7b\"msg\": \"hi\"\x7d"⟩ =
      .ok (echoFn.impl [("msg", JValue.str "hi")]) ∧
    run_tool (dictSet (dictSet [] "echo" echoFn) "echo" emptyResultFn)
        ⟨"echo", "\x7b\"msg\": \"hi\"\x7d"⟩ =
      callWithKwargs emptyResultFn [("msg", JValue.str "hi")] :=
  ⟨(claim_C4 [] "echo" echoFn emptyResultFn "\x7b\"msg\": \"hi\"\x7d"
      [("msg", JValue.str "hi")] rfl).1,
   (claim_C4 [] "echo" echoFn emptyResultFn "\x7b\"msg\": \"hi\"\x7d"
      [("msg", JValue.str "hi")] rfl).2.1 rfl,
   (claim_C4 [] "echo" echoFn emptyResultFn "\x7b\"msg\": \"hi\"\x7d"
      [("msg", JValue.str "hi")] rfl).2.2⟩

/-- C5: metadata synthesis is deterministic and total: the properties
dict is keyed exactly by the formal parameters in order, each parameter
appears exactly once in properties (with type string and the generated
placeholder description) and exactly once in required,
additionalProperties is always false, and the description is the
docstring when it is present and non-empty, else the generated fallback
(Python `or` falls back both on an absent and on an empty-string
docstring). -/
theorem claim_C5 (f : PyFunc) (hnd : f.params.Nodup) :
    generate_tool_metadata f = generate_tool_metadata f ∧
    (generate_tool_metadata f).parameters.properties.map Prod.fst =
      f.params ∧
    (generate_tool_metadata f).parameters.required = f.params ∧
    (∀ p ∈ f.params,
      ((generate_tool_metadata f).parameters.properties.map
        Prod.fst).count p = 1 ∧
      (generate_tool_metadata f).parameters.required.count p = 1 ∧
      dictGet (generate_tool_metadata f).parameters.properties p =
        some ⟨"string", "Parameter: " ++ p⟩) ∧
    (generate_tool_metadata f).parameters.additionalProperties = false ∧
    ((f.doc = none ∨ f.doc = some "") →
      (generate_tool_metadata f).description =
        "Tool function: " ++ f.name) ∧
    (∀ s, f.doc = some s → s ≠ "" →
      (generate_tool_metadata f).description = s) := by
  have hprops : (generate_tool_metadata f).parameters.properties =
      f.params.map fun p =>
        (p, (⟨"string", "Parameter: " ++ p⟩ : ParamSchema)) := by
    simp only [generate_tool_metadata]
    simpa using foldl_dictSet_fresh
      (fun p => (⟨"string", "Parameter: " ++ p⟩ : ParamSchema))
      f.params [] hnd (fun p _ => rfl)
  have hkeys : (generate_tool_metadata f).parameters.properties.map
      Prod.fst = f.params := by
    rw [hprops, List.map_map]
    have hcomp : (Prod.fst ∘ fun p : String =>
        (p, (⟨"string", "Parameter: " ++ p⟩ : ParamSchema))) = id := rfl
    rw [hcomp, List.map_id]
  refine ⟨rfl, hkeys, rfl, ?_, rfl, ?_, ?_⟩
  · intro p hp
    refine ⟨?_, ?_, ?_⟩
    · rw [hkeys]
      exact List.count_eq_one_of_mem hnd hp
    · exact List.count_eq_one_of_mem hnd hp
    · rw [hprops]
      exact dictGet_map_of_nodup _ f.params hnd p hp
  · rintro (hd | hd) <;> simp [generate_tool_metadata, pyOrStr, hd]
  · intro s hs hne
    simp [generate_tool_metadata, pyOrStr, hs, hne]

/-- C5 witness: the echo tool's synthesised schema at its concrete
parameter, and its non-empty docstring carried as the description. -/
theorem claim_C5_witness :
    (["msg"] : List String).Nodup ∧
    dictGet (generate_tool_metadata echoFn).parameters.properties "msg" =
      some ⟨"string", "Parameter: msg"⟩ ∧
    (generate_tool_metadata echoFn).parameters.additionalProperties =
      false ∧
    (generate_tool_metadata echoFn).description =
      "Echo the input message." :=
  ⟨by decide,
   ((claim_C5 echoFn (by decide)).2.2.2.1 "msg" (by decide)).2.2,
   (claim_C5 echoFn (by decide)).2.2.2.2.1,
   (claim_C5 echoFn (by decide)).2.2.2.2.2.2
     "Echo the input message." rfl (by decide)⟩

/-- C10: a tool registered under a name differing from the callable's
own dunder-name is advertised by `get_tools` under the dunder-name (not
the registration key), while `run_tool` looks up the registration key:
dispatching the advertised name fails with ToolNotFound although the
tool is registered, and dispatching the registration key succeeds in
reaching the callable. -/
theorem claim_C10 (reg : Registry) (n : String) (f : PyFunc) (A : String)
    (kwargs : List (String × JValue))
    (hget : dictGet reg n = some f)
    (hdiff : f.name ≠ n)
    (hnot : dictGet reg f.name = none)
    (hA : json_loads A = some (.obj kwargs)) :
    (∃ w ∈ get_tools reg,
      w.function.name = f.name ∧ w.function.name ≠ n) ∧
    run_tool reg ⟨f.name, A⟩ = .error (.toolNotFound f.name) ∧
    run_tool reg ⟨n, A⟩ = callWithKwargs f kwargs := by
  refine ⟨?_, ?_, ?_⟩
  · exact ⟨⟨"function", generate_tool_metadata f⟩,
      List.mem_map.mpr ⟨(n, f), mem_of_dictGet reg n f hget, rfl⟩,
      rfl, hdiff⟩
  · simp [run_tool, hA, hnot]
  · simp [run_tool, hA, hget]

/-- C10 witness: echo registered under the key "alias": the schema
advertises "echo", dispatching "echo" raises ToolNotFound, dispatching
"alias" reaches the callable. -/
theorem claim_C10_witness :
    (∃ w ∈ get_tools (dictSet [] "alias" echoFn),
      w.function.name = echoFn.name ∧ w.function.name ≠ "alias") ∧
    run_tool (dictSet [] "alias" echoFn)
        ⟨echoFn.name, "\x7b\"msg\": \"m\"\x7d"⟩ =
      .error (.toolNotFound echoFn.name) ∧
    run_tool (dictSet [] "alias" echoFn)
        ⟨"alias", "\x7b\"msg\": \"m\"\x7d"⟩ =
      callWithKwargs echoFn [("msg", JValue.str "m")] :=
  claim_C10 (dictSet [] "alias" echoFn) "alias" echoFn
    "\x7b\"msg\": \"m\"\x7d" [("msg", JValue.str "m")]
    rfl (by decide) rfl rfl

/-- C1 (amended): `get_tools()` itself is regenerated from the live
registry — one wrapped schema entry per currently registered name,
including a name registered after a Chatter's construction — but the
Chatter captures `get_tools()` once at construction when no explicit
tools are passed, and every remote-model request of a turn carries that
captured list, so tools registered after construction are not included
in the schema list sent with subsequent requests (see the
counterexample). -/
theorem claim_C1 (reg : Registry) (n : String) (f : PyFunc) (c : Chatter)
    (message : String) (hist : List HistMsg)
    (responses : List RemoteResponse) :
    (get_tools (dictSet reg n f)).length = (dictSet reg n f).length ∧
    (⟨"function", generate_tool_metadata f⟩ : WrappedTool) ∈
      get_tools (dictSet reg n f) ∧
    (Chatter.init reg none none none).tools = get_tools reg ∧
    ∀ r ∈ (Chatter.chat c (dictSet reg n f) message hist
        responses).requests, r.tools = c.tools := by
  refine ⟨by simp [get_tools], ?_, rfl, ?_⟩
  · exact List.mem_map.mpr ⟨(n, f), mem_dictSet_self reg n f, rfl⟩
  · exact chat_requests_tools c (dictSet reg n f) message hist responses

/-- C1 witness: the registry extended with echo after construction, and
the concrete request the constructed driver sends. -/
theorem claim_C1_witness :
    (get_tools (dictSet [] "echo" echoFn)).length =
      (dictSet [] "echo" echoFn).length ∧
    (⟨"function", generate_tool_metadata echoFn⟩ : WrappedTool) ∈
      get_tools (dictSet [] "echo" echoFn) ∧
    (Chatter.init [] none none none).tools = get_tools [] ∧
    (⟨"gpt-5-nano", [OutMsg.system "You are a helpful assistant.",
        OutMsg.user "hi"], [], "auto"⟩ : Request).tools =
      (Chatter.init [] none none none).tools :=
  ⟨(claim_C1 [] "echo" echoFn (Chatter.init [] none none none) "hi" []
      [⟨"answer", []⟩]).1,
   (claim_C1 [] "echo" echoFn (Chatter.init [] none none none) "hi" []
      [⟨"answer", []⟩]).2.1,
   (claim_C1 [] "echo" echoFn (Chatter.init [] none none none) "hi" []
      [⟨"answer", []⟩]).2.2.1,
   (claim_C1 [] "echo" echoFn (Chatter.init [] none none none) "hi" []
      [⟨"answer", []⟩]).2.2.2
     ⟨"gpt-5-nano", [OutMsg.system "You are a helpful assistant.",
        OutMsg.user "hi"], [], "auto"⟩ (by decide)⟩

/-- C1 counterexample: a driver constructed over the empty registry and
a tool registered afterwards: the registry then holds one tool, yet the
schema list sent with the next remote-model request is empty — it
contains no wrapped entry for the newly registered tool. -/
theorem claim_C1_counterexample :
    (Chatter.chat (Chatter.init [] none none none)
        (dictSet [] "echo" echoFn) "hi" [] [⟨"answer", []⟩]).requests =
      [⟨"gpt-5-nano", [OutMsg.system "You are a helpful assistant.",
        OutMsg.user "hi"], [], "auto"⟩] ∧
    (get_tools (dictSet [] "echo" echoFn)).length = 1 :=
  ⟨rfl, rfl⟩

/-- C2 (amended): the `tool` history entry always carries the JSON
serialization of the tool's result: the "No results found." fallback
guards against an empty serialized string, which `json.dumps` never
produces — in particular an empty tool result serializes to a quoted
empty string, not to the fallback text (see the counterexample). -/
theorem claim_C2 (reg : Registry) (tcs : List ToolCallRec)
    (results : List ToolResponseMsg)
    (h : Chatter.handle_tool_calls reg tcs = .ok results) :
    ∀ r ∈ results, strOr r.content "No results found." = r.content := by
  intro r hr
  obtain ⟨-, -, hc⟩ := handle_tool_calls_align reg tcs results h
  obtain ⟨v, hv⟩ := hc r hr
  simp [strOr, hv, dumps_ne_empty v]

/-- C2 witness: the serialized echo result is carried verbatim. -/
theorem claim_C2_witness :
    strOr (⟨"id1", "echo", "\"hi\""⟩ : ToolResponseMsg).content
        "No results found." =
      (⟨"id1", "echo", "\"hi\""⟩ : ToolResponseMsg).content :=
  claim_C2 (dictSet [] "echo" echoFn)
    [⟨"id1", "echo", "\x7b\"msg\": \"hi\"\x7d"⟩]
    [⟨"id1", "echo", "\"hi\""⟩] rfl
    ⟨"id1", "echo", "\"hi\""⟩ (by decide)

/-- C2 counterexample: a tool returning the empty string: the appended
`tool` history entry carries the serialization of the empty string (a
quoted empty string), not the fallback text "No results found.". -/
theorem claim_C2_counterexample :
    (Chatter.chat
        (Chatter.init (dictSet [] "empty_result" emptyResultFn)
          none none none)
        (dictSet [] "empty_result" emptyResultFn) "go" []
        [⟨"", [⟨"id1", "empty_result", "\x7b\x7d"⟩]⟩,
         ⟨"done", []⟩]).history =
      [.user "go",
       .assistant "Tool call issued."
         (some [⟨"id1", "empty_result", "\x7b\x7d"⟩]),
       .tool "id1" "empty_result" "\"\"",
       .assistant "done" none] ∧
    "\"\"" ≠ "No results found." :=
  ⟨rfl, by decide⟩

/-- C7: a turn whose first remote response carries no tool-call requests
appends exactly the user entry and one assistant entry to the history
and returns that assistant entry's content — the response's text, or
the fallback "No response." when it is empty. -/
theorem claim_C7 (c : Chatter) (reg : Registry) (message : String)
    (hist : List HistMsg) (resp : RemoteResponse)
    (rest : List RemoteResponse) (msgs : List OutMsg)
    (hresp : resp.tool_calls = [])
    (htrans : translateHistory c.system_message
      (hist ++ [.user message]) = .ok msgs) :
    Chatter.chat c reg message hist (resp :: rest) =
      .ok (hist ++ [.user message,
          .assistant (strOr resp.content "No response.") none])
        (strOr resp.content "No response.")
        [⟨c.model, msgs, c.tools, "auto"⟩] := by
  simp only [Chatter.chat, htrans]
  simp [chatLoop, hresp]

/-- C7 witness: a concrete tool-call-free turn. -/
theorem claim_C7_witness :
    Chatter.chat (Chatter.init [] none none none) [] "hi" []
        [⟨"hello", []⟩] =
      ChatOutcome.ok [.user "hi", .assistant "hello" none] "hello"
        [⟨"gpt-5-nano",
          [.system "You are a helpful assistant.", .user "hi"],
          [], "auto"⟩] :=
  claim_C7 (Chatter.init [] none none none) [] "hi" [] ⟨"hello", []⟩ []
    [.system "You are a helpful assistant.", .user "hi"] rfl rfl

/-- C8: a history entry whose role is none of the four recognised ones
makes the outbound translation fail immediately with the fatal
invalid-role error, aborting the turn before any remote request and
with no recovery inside the loop. -/
theorem claim_C8 (c : Chatter) (reg : Registry) (message : String)
    (hist : List HistMsg) (responses : List RemoteResponse)
    (h : ∃ m ∈ hist, m.isOther = true) :
    ∃ r ct, Chatter.chat c reg message hist responses =
      .err (hist ++ [.user message]) (.invalidRole (.other r ct)) [] := by
  obtain ⟨bad, hbad, hother⟩ := h
  obtain ⟨r1, c1, h1⟩ := translateList_error_of_other
    (hist ++ [.user message])
    ⟨bad, List.mem_append_left _ hbad, hother⟩
  exact ⟨r1, c1, by simp only [Chatter.chat, translateHistory, h1]⟩

/-- C8 witness: a history holding an entry with role "banana". -/
theorem claim_C8_witness :
    ∃ r ct, Chatter.chat (Chatter.init [] none none none) [] "hi"
        [HistMsg.other "banana" "x"] [⟨"hello", []⟩] =
      .err ([HistMsg.other "banana" "x"] ++ [.user "hi"])
        (.invalidRole (.other r ct)) [] :=
  claim_C8 (Chatter.init [] none none none) [] "hi"
    [HistMsg.other "banana" "x"] [⟨"hello", []⟩]
    ⟨HistMsg.other "banana" "x", by decide, rfl⟩

/-- C9: a chat turn only ever appends to the history: the incoming
history is an initial segment of the history in every outcome — no
pre-existing entry is modified, replaced, reordered or removed, and the
sequence is never truncated. -/
theorem claim_C9 (c : Chatter) (reg : Registry) (message : String)
    (hist : List HistMsg) (responses : List RemoteResponse) :
    ∃ t, (Chatter.chat c reg message hist responses).history =
      hist ++ t := by
  simp only [Chatter.chat]
  split
  · exact ⟨[.user message], rfl⟩
  · rename_i msgs hmsgs
    obtain ⟨t2, ht2⟩ := chatLoop_history_extends c.model c.tools
      c.system_message reg responses (hist ++ [.user message]) msgs []
    exact ⟨[.user message] ++ t2, by rw [ht2]; simp⟩

/-- C9 witness: a concrete turn extending a nonempty history. -/
theorem claim_C9_witness :
    ∃ t, (Chatter.chat (Chatter.init [] none none none) [] "hi"
        [HistMsg.user "earlier"] [⟨"hello", []⟩]).history =
      [HistMsg.user "earlier"] ++ t :=
  claim_C9 (Chatter.init [] none none none) [] "hi"
    [HistMsg.user "earlier"] [⟨"hello", []⟩]

/-- C6: a loop iteration whose response carries tool-call requests and
whose dispatches succeed appends exactly one assistant entry capturing
the tool-call list verbatim (content "Tool call issued." if the
response content is empty), followed by one tool entry per request in
the order received, whose `tool_call_id`s (and names) are positionally
exactly the ids (and names) emitted in that immediately preceding
assistant entry's tool-call list; the loop then continues on the
extended history. -/
theorem claim_C6 (model : String) (tools : List WrappedTool)
    (sysMsg : String) (reg : Registry) (hist : List HistMsg)
    (msgs : List OutMsg) (resp : RemoteResponse)
    (rest : List RemoteResponse) (reqs : List Request)
    (results : List ToolResponseMsg) (oms : List OutMsg)
    (hne : resp.tool_calls ≠ [])
    (hh : Chatter.handle_tool_calls reg resp.tool_calls = .ok results)
    (ht : translateList hist = .ok oms) :
    ∃ (toolEntries : List HistMsg) (msgs2 : List OutMsg),
      chatLoop model tools sysMsg reg hist msgs (resp :: rest) reqs =
        chatLoop model tools sysMsg reg
          (hist ++ HistMsg.assistant (strOr resp.content
            "Tool call issued.") (some resp.tool_calls) :: toolEntries)
          msgs2 rest (reqs ++ [⟨model, msgs, tools, "auto"⟩]) ∧
      toolEntries.map HistMsg.toolCallIdOf =
        resp.tool_calls.map (fun tc => some tc.id) ∧
      toolEntries.map HistMsg.nameOf =
        resp.tool_calls.map (fun tc => some tc.name) := by
  obtain ⟨h1, h2, -⟩ := handle_tool_calls_align reg resp.tool_calls
    results hh
  have hic : resp.tool_calls.isEmpty = false := by
    cases h0 : resp.tool_calls with
    | nil => exact absurd h0 hne
    | cons a l => rfl
  have hassist : ∀ m ∈ ([HistMsg.assistant (strOr resp.content
      "Tool call issued.") (some resp.tool_calls)] ++
      results.map fun tm => HistMsg.tool tm.tool_call_id tm.name
        (strOr tm.content "No results found.")), m.isOther = false := by
    intro m hm
    rcases List.mem_append.mp hm with hx | hx
    · simp at hx
      subst hx
      rfl
    · obtain ⟨tm, -, htm⟩ := List.mem_map.mp hx
      rw [← htm]
      rfl
  obtain ⟨oms2, homs2⟩ := translateList_ok_of_no_other _ hassist
  have h3 : translateList ((hist ++ [HistMsg.assistant
      (strOr resp.content "Tool call issued.")
      (some resp.tool_calls)]) ++
      results.map fun tm => HistMsg.tool tm.tool_call_id tm.name
        (strOr tm.content "No results found.")) = .ok (oms ++ oms2) := by
    rw [List.append_assoc]
    exact translateList_append_ok hist _ oms oms2 ht homs2
  have h4 : translateHistory sysMsg ((hist ++ [HistMsg.assistant
      (strOr resp.content "Tool call issued.")
      (some resp.tool_calls)]) ++
      results.map fun tm => HistMsg.tool tm.tool_call_id tm.name
        (strOr tm.content "No results found.")) =
      .ok (OutMsg.system sysMsg :: (oms ++ oms2)) := by
    simp only [translateHistory, h3]
  refine ⟨results.map fun tm => HistMsg.tool tm.tool_call_id tm.name
      (strOr tm.content "No results found."),
    OutMsg.system sysMsg :: (oms ++ oms2), ?_, ?_, ?_⟩
  · simp only [chatLoop, hic, Bool.false_eq_true, if_false, hh, h4]
    rw [List.append_assoc, List.singleton_append]
  · calc (results.map fun tm => HistMsg.tool tm.tool_call_id tm.name
          (strOr tm.content "No results found.")).map
            HistMsg.toolCallIdOf
        = (results.map ToolResponseMsg.tool_call_id).map some := by
          simp only [List.map_map]; rfl
      _ = (resp.tool_calls.map ToolCallRec.id).map some := by rw [h1]
      _ = resp.tool_calls.map fun tc => some tc.id := by
          simp only [List.map_map]; rfl
  · calc (results.map fun tm => HistMsg.tool tm.tool_call_id tm.name
          (strOr tm.content "No results found.")).map HistMsg.nameOf
        = (results.map ToolResponseMsg.name).map some := by
          simp only [List.map_map]; rfl
      _ = (resp.tool_calls.map ToolCallRec.name).map some := by rw [h2]
      _ = resp.tool_calls.map fun tc => some tc.name := by
          simp only [List.map_map]; rfl

/-- C6 witness: a concrete iteration dispatching one echo call. -/
theorem claim_C6_witness :
    ∃ (toolEntries : List HistMsg) (msgs2 : List OutMsg),
      chatLoop "m" [] "sys" (dictSet [] "echo" echoFn)
          [HistMsg.user "go"] []
          [⟨"", [⟨"id1", "echo", "\x7b\"msg\": \"hi\"\x7d"⟩]⟩] [] =
        chatLoop "m" [] "sys" (dictSet [] "echo" echoFn)
          ([HistMsg.user "go"] ++ HistMsg.assistant
            (strOr "" "Tool call issued.")
            (some [⟨"id1", "echo", "\x7b\"msg\": \"hi\"\x7d"⟩]) ::
              toolEntries)
          msgs2 [] ([] ++ [⟨"m", [], [], "auto"⟩]) ∧
      toolEntries.map HistMsg.toolCallIdOf =
        ([⟨"id1", "echo", "\x7b\"msg\": \"hi\"\x7d"⟩] :
          List ToolCallRec).map (fun tc => some tc.id) ∧
      toolEntries.map HistMsg.nameOf =
        ([⟨"id1", "echo", "\x7b\"msg\": \"hi\"\x7d"⟩] :
          List ToolCallRec).map (fun tc => some tc.name) :=
  claim_C6 "m" [] "sys" (dictSet [] "echo" echoFn) [HistMsg.user "go"]
    [] ⟨"", [⟨"id1", "echo", "\x7b\"msg\": \"hi\"\x7d"⟩]⟩ [] []
    [⟨"id1", "echo", "\"hi\""⟩] [OutMsg.user "go"]
    (by decide) rfl rfl
